import Mathlib

/-!
Verification of the skslc standalone command-line driver (src/sksl/SkSLMain.cpp):
the batch command driver and the #pragma-settings mini-parser.

Strings are modelled as `List Char` (`SkSL::String` over the program text and
command-line arguments).  File I/O, the compiler and the code emitters are
external collaborators; they are modelled by an oracle (`World`) giving the
outcome of each fallible step, and the driver's observable actions are recorded
in an event trace.
-/

set_option maxRecDepth 8000

deriving instance DecidableEq for Except

namespace SkSLMain

/-- ResultCode from SkSLMain.cpp: kSuccess=0, kCompileError=1, kInputError=2,
kOutputError=3. -/
inductive ResultCode where
  | kSuccess
  | kCompileError
  | kInputError
  | kOutputError
deriving DecidableEq, Repr

/-- The underlying integer of a ResultCode (its C++ enum value, and the
process exit status `(int) resultCode`). -/
def ResultCode.toNat : ResultCode → Nat
  | .kSuccess => 0
  | .kCompileError => 1
  | .kInputError => 2
  | .kOutputError => 3

/-- C++ `<` on ResultCode compares the underlying enum values. -/
def rcLt (a b : ResultCode) : Bool := a.toNat < b.toNat

/-- `std::max(a, b)` is `b` when `a < b`, otherwise `a`. -/
def rcMax (a b : ResultCode) : ResultCode := if rcLt a b then b else a

/-- The capability bundles reachable from SkSLMain.cpp: the default standalone
caps plus the 23 `ShaderCapsFactory` bundles selectable from a
`#pragma settings` comment.  Modelled from the spec: a capability bundle is an
opaque handle selected by name (the factory itself is not in the excerpt). -/
inductive ShaderCaps where
  | standalone
  | addAndTrueToLoopCondition
  | blendModesFailRandomlyForAllZeroVec
  | cannotUseFractForNegativeValues
  | cannotUseFragCoord
  | cannotUseMinAndAbsTogether
  | default
  | emulateAbsIntFunction
  | fragCoordsOld
  | fragCoordsNew
  | geometryShaderExtensionString
  | geometryShaderSupport
  | gsInvocationsExtensionString
  | incompleteShortIntPrecision
  | mustGuardDivisionEvenAfterExplicitZeroCheck
  | mustForceNegatedAtanParamToFloat
  | noGSInvocationsSupport
  | removePowWithConstantExponent
  | rewriteDoWhileLoops
  | shaderDerivativeExtensionString
  | unfoldShortCircuitAsTernary
  | usesPrecisionModifiers
  | version110
  | version450Core
deriving DecidableEq, Repr

/-- INT_MAX, the value `InlineThresholdMax` stores into the inline threshold. -/
def intMax : Int := 2147483647

/-- Modelled from the spec: the default inline threshold of
`SkSL::Program::Settings` (the struct itself is not in the excerpt; the claims
depend only on it being the default, not on the numeric value). -/
def defaultInlineThreshold : Int := 50

/-- The fields of `SkSL::Program::Settings` that SkSLMain.cpp touches.
Modelled from the spec: all toggles default to false, the inline threshold to
its default, and `fReplaceSettings` to true (the .h/.cpp pipelines turn it
off). -/
structure Settings where
  fFlipY : Bool := false
  fForceHighPrecision : Bool := false
  fInlineThreshold : Int := defaultInlineThreshold
  fSharpenTextures : Bool := false
  fReplaceSettings : Bool := true
deriving DecidableEq, Repr

/-- A fresh `SkSL::Program::Settings settings;` with all defaults. -/
def defaultSettings : Settings := {}

/-- Modelled from the spec: `SkSL::String::consumeSuffix` strips the suffix
and reports success when the text ends with it (the class is not in the
excerpt).  Returns the stripped text on success. -/
def consumeSuffix (suffix : List Char) (text : List Char) : Option (List Char) :=
  if suffix.isSuffixOf text then some (text.take (text.length - suffix.length)) else none

/-- C `strstr`: the first occurrence of `pat` in `text`, returned as the
remaining text from that occurrence on (`none` when absent). -/
def strstr (pat : List Char) : List Char → Option (List Char)
  | [] => if pat.isPrefixOf ([] : List Char) then some [] else none
  | c :: rest =>
      if pat.isPrefixOf (c :: rest) then some (c :: rest) else strstr pat rest

/-- The recognized `#pragma settings` tokens, one per `consumeSuffix` test in
`detect_shader_settings`: 23 capability-bundle selectors followed by the five
settings toggles. -/
inductive Tok where
  | addAndTrueToLoopCondition
  | blendModesFailRandomlyForAllZeroVec
  | cannotUseFractForNegativeValues
  | cannotUseFragCoord
  | cannotUseMinAndAbsTogether
  | default
  | emulateAbsIntFunction
  | fragCoordsOld
  | fragCoordsNew
  | geometryShaderExtensionString
  | geometryShaderSupport
  | gsInvocationsExtensionString
  | incompleteShortIntPrecision
  | mustGuardDivisionEvenAfterExplicitZeroCheck
  | mustForceNegatedAtanParamToFloat
  | noGSInvocationsSupport
  | removePowWithConstantExponent
  | rewriteDoWhileLoops
  | shaderDerivativeExtensionString
  | unfoldShortCircuitAsTernary
  | usesPrecisionModifiers
  | version110
  | version450Core
  | flipY
  | forceHighPrecision
  | noInline
  | inlineThresholdMax
  | sharpen
deriving DecidableEq, Repr

/-- The token's name as it appears in the pragma text. -/
def tokName : Tok → List Char
  | .addAndTrueToLoopCondition => ("AddAndTrueToLoopCondition").data
  | .blendModesFailRandomlyForAllZeroVec => ("BlendModesFailRandomlyForAllZeroVec").data
  | .cannotUseFractForNegativeValues => ("CannotUseFractForNegativeValues").data
  | .cannotUseFragCoord => ("CannotUseFragCoord").data
  | .cannotUseMinAndAbsTogether => ("CannotUseMinAndAbsTogether").data
  | .default => ("Default").data
  | .emulateAbsIntFunction => ("EmulateAbsIntFunction").data
  | .fragCoordsOld => ("FragCoordsOld").data
  | .fragCoordsNew => ("FragCoordsNew").data
  | .geometryShaderExtensionString => ("GeometryShaderExtensionString").data
  | .geometryShaderSupport => ("GeometryShaderSupport").data
  | .gsInvocationsExtensionString => ("GSInvocationsExtensionString").data
  | .incompleteShortIntPrecision => ("IncompleteShortIntPrecision").data
  | .mustGuardDivisionEvenAfterExplicitZeroCheck =>
      ("MustGuardDivisionEvenAfterExplicitZeroCheck").data
  | .mustForceNegatedAtanParamToFloat => ("MustForceNegatedAtanParamToFloat").data
  | .noGSInvocationsSupport => ("NoGSInvocationsSupport").data
  | .removePowWithConstantExponent => ("RemovePowWithConstantExponent").data
  | .rewriteDoWhileLoops => ("RewriteDoWhileLoops").data
  | .shaderDerivativeExtensionString => ("ShaderDerivativeExtensionString").data
  | .unfoldShortCircuitAsTernary => ("UnfoldShortCircuitAsTernary").data
  | .usesPrecisionModifiers => ("UsesPrecisionModifiers").data
  | .version110 => ("Version110").data
  | .version450Core => ("Version450Core").data
  | .flipY => ("FlipY").data
  | .forceHighPrecision => ("ForceHighPrecision").data
  | .noInline => ("NoInline").data
  | .inlineThresholdMax => ("InlineThresholdMax").data
  | .sharpen => ("Sharpen").data

/-- The suffix string `consumeSuffix` is called with: a leading space plus the
token name (`" Sharpen"` etc.). -/
def tokSuffix (t : Tok) : List Char := ' ' :: tokName t

/-- Whether the token is a capability-bundle selector (as opposed to a
settings toggle). -/
def isSelector : Tok → Bool
  | .flipY | .forceHighPrecision | .noInline | .inlineThresholdMax | .sharpen => false
  | _ => true

/-- The capability bundle a selector token installs (`ShaderCapsFactory::X`);
arbitrary on the five toggles, which never touch the caps. -/
def capOf : Tok → ShaderCaps
  | .addAndTrueToLoopCondition => .addAndTrueToLoopCondition
  | .blendModesFailRandomlyForAllZeroVec => .blendModesFailRandomlyForAllZeroVec
  | .cannotUseFractForNegativeValues => .cannotUseFractForNegativeValues
  | .cannotUseFragCoord => .cannotUseFragCoord
  | .cannotUseMinAndAbsTogether => .cannotUseMinAndAbsTogether
  | .default => .default
  | .emulateAbsIntFunction => .emulateAbsIntFunction
  | .fragCoordsOld => .fragCoordsOld
  | .fragCoordsNew => .fragCoordsNew
  | .geometryShaderExtensionString => .geometryShaderExtensionString
  | .geometryShaderSupport => .geometryShaderSupport
  | .gsInvocationsExtensionString => .gsInvocationsExtensionString
  | .incompleteShortIntPrecision => .incompleteShortIntPrecision
  | .mustGuardDivisionEvenAfterExplicitZeroCheck =>
      .mustGuardDivisionEvenAfterExplicitZeroCheck
  | .mustForceNegatedAtanParamToFloat => .mustForceNegatedAtanParamToFloat
  | .noGSInvocationsSupport => .noGSInvocationsSupport
  | .removePowWithConstantExponent => .removePowWithConstantExponent
  | .rewriteDoWhileLoops => .rewriteDoWhileLoops
  | .shaderDerivativeExtensionString => .shaderDerivativeExtensionString
  | .unfoldShortCircuitAsTernary => .unfoldShortCircuitAsTernary
  | .usesPrecisionModifiers => .usesPrecisionModifiers
  | .version110 => .version110
  | .version450Core => .version450Core
  | .flipY | .forceHighPrecision | .noInline | .inlineThresholdMax | .sharpen => .standalone

/-- The effect of a consumed token on the `(settings, caps)` pair: a selector
overwrites the caps pointer, a toggle sets its `Settings` field. -/
def applyTok (t : Tok) (a : Settings × ShaderCaps) : Settings × ShaderCaps :=
  match t with
  | .flipY => ({ a.1 with fFlipY := true }, a.2)
  | .forceHighPrecision => ({ a.1 with fForceHighPrecision := true }, a.2)
  | .noInline => ({ a.1 with fInlineThreshold := 0 }, a.2)
  | .inlineThresholdMax => ({ a.1 with fInlineThreshold := intMax }, a.2)
  | .sharpen => ({ a.1 with fSharpenTextures := true }, a.2)
  | t => (a.1, capOf t)

/-- The fixed order in which `detect_shader_settings` tests the tokens
(source order of the `consumeSuffix` calls). -/
def settingsTable : List Tok :=
  [.addAndTrueToLoopCondition, .blendModesFailRandomlyForAllZeroVec,
   .cannotUseFractForNegativeValues, .cannotUseFragCoord, .cannotUseMinAndAbsTogether,
   .default, .emulateAbsIntFunction, .fragCoordsOld, .fragCoordsNew,
   .geometryShaderExtensionString, .geometryShaderSupport, .gsInvocationsExtensionString,
   .incompleteShortIntPrecision, .mustGuardDivisionEvenAfterExplicitZeroCheck,
   .mustForceNegatedAtanParamToFloat, .noGSInvocationsSupport,
   .removePowWithConstantExponent, .rewriteDoWhileLoops, .shaderDerivativeExtensionString,
   .unfoldShortCircuitAsTernary, .usesPrecisionModifiers, .version110, .version450Core,
   .flipY, .forceHighPrecision, .noInline, .inlineThresholdMax, .sharpen]

/-- The in-flight state of the settings loop: the remaining `settingsText`
plus the settings record and the caps pointer being mutated. -/
structure LoopState where
  text : List Char
  settings : Settings
  caps : ShaderCaps
deriving DecidableEq, Repr

/-- One `if (settingsText.consumeSuffix(...)) { ... }` statement. -/
def stepTok (s : LoopState) (t : Tok) : LoopState :=
  match consumeSuffix (tokSuffix t) s.text with
  | some rest =>
      let a := applyTok t (s.settings, s.caps)
      { text := rest, settings := a.1, caps := a.2 }
  | none => s

/-- One iteration of the `for (;;)` body: all 28 `consumeSuffix` tests, in
source order, on the evolving text. -/
def onePass (s : LoopState) : LoopState := settingsTable.foldl stepTok s

/-- The `for (;;)` loop of `detect_shader_settings`: run a pass; stop with
success when the text is empty, with failure (carrying the unrecognized
remainder that gets printed) when a pass made no progress.  The loop always
terminates because a productive pass shortens the text; the fuel is a bound on
the number of passes, and `detect_shader_settings` supplies enough. -/
def settingsLoop : Nat → LoopState → Except (List Char) (Settings × ShaderCaps)
  | 0, s => .error s.text
  | fuel + 1, s =>
      let s' := onePass s
      if s'.text = [] then .ok (s'.settings, s'.caps)
      else if s'.text.length = s.text.length then .error s'.text
      else settingsLoop fuel s'

/-- The literal marker `"/*#pragma settings "`. -/
def kPragmaSettings : List Char := ("/*#pragma settings ").data

/-- `detect_shader_settings`: find the marker; if absent succeed with no
mutation.  Otherwise step past the marker keeping its trailing space, find the
`"*/"` terminator (absent terminator also succeeds with no mutation), and run
the settings loop on the text in between.  `.error r` corresponds to the C++
`return false` after printing the unrecognized remainder `r`. -/
def detect_shader_settings (text : List Char) (settings : Settings) (caps : ShaderCaps) :
    Except (List Char) (Settings × ShaderCaps) :=
  match strstr kPragmaSettings text with
  | none => .ok (settings, caps)
  | some fromMarker =>
      let settingsPtr := fromMarker.drop (kPragmaSettings.length - 1)
      match strstr (("*/").data) settingsPtr with
      | none => .ok (settings, caps)
      | some fromEnd =>
          let settingsText := settingsPtr.take (settingsPtr.length - fromEnd.length)
          settingsLoop (settingsText.length + 1)
            { text := settingsText, settings := settings, caps := caps }

/-- The filename part of a path: everything after the last `/` or `\`
(the back-up loop at the start of `base_name`). -/
def fileNameOf (p : List Char) : List Char :=
  ((p.reverse.takeWhile fun ch => ch ≠ '/' ∧ ch ≠ '\\')).reverse

/-- `base_name`: if the filename part starts with `pre` and the path ends with
`suf`, the filename with both stripped; otherwise the empty string.  (The two
`strncmp` tests against the NUL-terminated path are prefix/suffix tests.) -/
def base_name (fpPath : List Char) (pre : List Char) (suf : List Char) : List Char :=
  let fileName := fileNameOf fpPath
  if pre.isPrefixOf fileName ∧ suf.isSuffixOf fpPath then
    (fileName.drop pre.length).take (fileName.length - pre.length - suf.length)
  else []

/-- `SkSL::Program::Kind`, restricted to the five kinds `processCommand`
selects from the input suffix. -/
inductive ProgramKind where
  | kVertex
  | kFragment
  | kGeometry
  | kFragmentProcessor
  | kPipelineStage
deriving DecidableEq, Repr

/-- The input-suffix chain of `processCommand`: `.vert`, then `.frag` or
`.sksl`, then `.geom`, `.fp`, `.stage`; anything else has no kind (the C++
prints the allowed-suffix diagnostic and returns kInputError). -/
def stageOfPath (inputPath : List Char) : Option ProgramKind :=
  if ((".vert").data).isSuffixOf inputPath then some .kVertex
  else if ((".frag").data).isSuffixOf inputPath ∨ ((".sksl").data).isSuffixOf inputPath then
    some .kFragment
  else if ((".geom").data).isSuffixOf inputPath then some .kGeometry
  else if ((".fp").data).isSuffixOf inputPath then some .kFragmentProcessor
  else if ((".stage").data).isSuffixOf inputPath then some .kPipelineStage
  else none

/-- The observable actions of a job, in order: text printed to stdout, the
input read, output-file opens/writes/closes, and invocations of the external
compiler. -/
inductive Event where
  | print (s : List Char)
  | readInput (p : List Char)
  | openOutput (p : List Char)
  | invokeCompiler
  | writeOutput (p : List Char)
  | closeOutput (p : List Char)
deriving DecidableEq, Repr

/-- Whether an event touches the filesystem (reads the input or opens, writes
or closes an output). -/
def isFileEvent : Event → Bool
  | .readInput _ => true
  | .openOutput _ => true
  | .writeOutput _ => true
  | .closeOutput _ => true
  | _ => false

/-- Whether an event opens, writes or closes the output file. -/
def isOutputEvent : Event → Bool
  | .openOutput _ => true
  | .writeOutput _ => true
  | .closeOutput _ => true
  | _ => false

/-- Oracle for one job's external collaborators: whether the input read
succeeds and the text it yields, whether the output stream opens, whether
`convertProgram` plus the emitter succeed (and the diagnostic text when not),
and whether the final `close()` succeeds. -/
structure World where
  readOk : Bool
  fileText : List Char
  outOpenOk : Bool
  compileOk : Bool
  errorText : List Char
  closeOk : Bool

/-- The `show_usage()` banner. -/
def usageText : List Char :=
  ("usage: skslc <input> <output> <flags> -- <input2> <output2> <flags> -- ...\n\nAllowed flags:\n--settings:   honor embedded /*#pragma settings*/ comments.\n--nosettings: ignore /*#pragma settings*/ comments\n").data

/-- The `"unrecognized flag: %s\n\n"` message. -/
def unrecognizedFlagMsg (flag : List Char) : List Char :=
  ("unrecognized flag: ").data ++ flag ++ ("\n\n").data

/-- The allowed-input-suffix diagnostic of `processCommand`. -/
def stageErrMsg : List Char :=
  ("input filename must end in '.vert', '.frag', '.geom', '.fp', '.stage', or '.sksl'\n").data

/-- The `"error reading '%s'\n"` message. -/
def errReadingMsg (p : List Char) : List Char :=
  ("error reading '").data ++ p ++ ("'\n").data

/-- The `"error writing '%s'\n"` message. -/
def errWritingMsg (p : List Char) : List Char :=
  ("error writing '").data ++ p ++ ("'\n").data

/-- The `"Unrecognized #pragma settings: %s\n"` message printed by
`detect_shader_settings` before it returns false. -/
def unrecognizedPragmaMsg (remainder : List Char) : List Char :=
  ("Unrecognized #pragma settings: ").data ++ remainder ++ ("\n").data

/-- The allowed-output-suffix diagnostic of `processCommand`. -/
def outputErrMsg : List Char :=
  ("expected output filename to end with '.spirv', '.glsl', '.cpp', '.h', or '.metal'").data

/-- The shared shape of the `.spirv`/`.glsl`/`.metal`/`.h`/`.cpp` branches of
`processCommand`: open the output (kOutputError if invalid), convert the
program and run the emitter (on failure `emitCompileError` rewrites the output
with the diagnostic and the branch returns kCompileError), then close the
output (kOutputError on failure).  The branches differ only in which emitter
runs and, for `.h`/`.cpp`, in clearing `fReplaceSettings` and passing a base
name; those differences live inside the external compiler step the `World`
oracle decides. -/
def standardPipeline (outputPath : List Char) (w : World) : ResultCode × List Event :=
  let opened := [Event.openOutput outputPath]
  if !w.outOpenOk then
    (.kOutputError, opened ++ [Event.print (errWritingMsg outputPath)])
  else if !w.compileOk then
    (.kCompileError, opened ++
      [Event.invokeCompiler, Event.closeOutput outputPath, Event.openOutput outputPath,
       Event.writeOutput outputPath, Event.closeOutput outputPath, Event.print w.errorText])
  else if !w.closeOk then
    (.kOutputError, opened ++
      [Event.invokeCompiler, Event.closeOutput outputPath,
       Event.print (errWritingMsg outputPath)])
  else
    (.kSuccess, opened ++ [Event.invokeCompiler, Event.closeOutput outputPath])

/-- The `.dehydrated.sksl` branch: open the output (kOutputError if invalid),
load the module and write the dehydrated byte array, then close the output
(kOutputError on failure).  There is no compile-failure path. -/
def dehydratedPipeline (outputPath : List Char) (w : World) : ResultCode × List Event :=
  let opened := [Event.openOutput outputPath]
  if !w.outOpenOk then
    (.kOutputError, opened ++ [Event.print (errWritingMsg outputPath)])
  else if !w.closeOk then
    (.kOutputError, opened ++
      [Event.invokeCompiler, Event.writeOutput outputPath, Event.closeOutput outputPath,
       Event.print (errWritingMsg outputPath)])
  else
    (.kSuccess, opened ++
      [Event.invokeCompiler, Event.writeOutput outputPath, Event.closeOutput outputPath])

/-- The output-suffix chain of `processCommand`: `.spirv`, `.glsl`, `.metal`,
`.h`, `.cpp`, `.dehydrated.sksl`, otherwise the output suffix is itself an
input error. -/
def routeBackend (outputPath : List Char) (w : World) : ResultCode × List Event :=
  if ((".spirv").data).isSuffixOf outputPath then standardPipeline outputPath w
  else if ((".glsl").data).isSuffixOf outputPath then standardPipeline outputPath w
  else if ((".metal").data).isSuffixOf outputPath then standardPipeline outputPath w
  else if ((".h").data).isSuffixOf outputPath then standardPipeline outputPath w
  else if ((".cpp").data).isSuffixOf outputPath then standardPipeline outputPath w
  else if ((".dehydrated.sksl").data).isSuffixOf outputPath then dehydratedPipeline outputPath w
  else (.kInputError, [Event.print outputErrMsg])

/-- `processCommand`: validate the argument shape (3 arguments, or 4 with
`--settings`/`--nosettings`), resolve the stage from the input suffix, read
the input, honor the settings pragma unless disabled, and route to the
backend pipeline.  Returns the job's ResultCode and the trace of its
observable actions. -/
def processCommand (args : List (List Char)) (w : World) : ResultCode × List Event :=
  let flagCheck : Except (List Event) Bool :=
    if args.length = 4 then
      if args.getD 3 [] = ("--settings").data then .ok true
      else if args.getD 3 [] = ("--nosettings").data then .ok false
      else .error [Event.print (unrecognizedFlagMsg (args.getD 3 [])), Event.print usageText]
    else if args.length ≠ 3 then .error [Event.print usageText]
    else .ok true
  match flagCheck with
  | .error es => (.kInputError, es)
  | .ok honorSettings =>
      let inputPath := args.getD 1 []
      match stageOfPath inputPath with
      | none => (.kInputError, [Event.print stageErrMsg])
      | some _kind =>
          let readTrace := [Event.readInput inputPath]
          if !w.readOk then
            (.kInputError, readTrace ++ [Event.print (errReadingMsg inputPath)])
          else
            let detected : Except (List Char) (Settings × ShaderCaps) :=
              if honorSettings then
                detect_shader_settings w.fileText defaultSettings .standalone
              else .ok (defaultSettings, .standalone)
            match detected with
            | .error remainder =>
                (.kInputError, readTrace ++ [Event.print (unrecognizedPragmaMsg remainder)])
            | .ok _state =>
                let outputPath := args.getD 2 []
                let routed := routeBackend outputPath w
                (routed.1, readTrace ++ routed.2)

/-- The `"--"` delimiter of the batch driver. -/
def delimiter : List Char := ("--").data

/-- The argument loop of `main`: walk the remaining argv; a non-delimiter is
appended to the pending argument group; a delimiter runs the pending group as
a command (when it holds more than just argv[0]) and folds its outcome into
the running result with `std::max`; after the walk the final pending group is
run the same way. -/
def mainLoop (exec : List (List Char) → ResultCode) (argv0 : List Char) :
    List (List Char) → List (List Char) → ResultCode → ResultCode
  | [], args, rc =>
      if args.length > 1 then rcMax rc (exec args) else rc
  | arg :: rest, args, rc =>
      if arg ≠ delimiter then mainLoop exec argv0 rest (args ++ [arg]) rc
      else if args.length > 1 then mainLoop exec argv0 rest [argv0] (rcMax rc (exec args))
      else mainLoop exec argv0 rest args rc

/-- `main`: process the batch, starting from `{argv[0]}` and kSuccess.
`exec` abstracts `processCommand` applied to one argument group (each job has
its own collaborator outcomes); `argv` is `argv[1..]`. -/
def skslcMain (exec : List (List Char) → ResultCode) (argv0 : List Char)
    (argv : List (List Char)) : ResultCode :=
  mainLoop exec argv0 argv [argv0] .kSuccess

/-- Splitting a list at every occurrence of the delimiter (specification-side
view of the batch: `segments delimiter argv` are the argument groups between
delimiters, in order, including a trailing group after the last delimiter). -/
def segments (dl : List Char) : List (List Char) → List (List (List Char))
  | [] => [[]]
  | a :: rest =>
      if a = dl then [] :: segments dl rest
      else
        match segments dl rest with
        | [] => [[a]]
        | s :: ss => (a :: s) :: ss

/-- The jobs of a batch: the non-empty delimiter-separated argument groups. -/
def jobsOf (argv : List (List Char)) : List (List (List Char)) :=
  (segments delimiter argv).filter (fun s => s ≠ [])

/-- The settings text of a well-formed pragma built from recognized tokens:
one leading space before each token name (the form the parser fully
consumes). -/
def joinToks (ts : List Tok) : List Char := (ts.map tokSuffix).flatten

/-- A shader text that is exactly a settings pragma over the given tokens. -/
def pragmaOf (ts : List Tok) : List Char :=
  ("/*#pragma settings").data ++ joinToks ts ++ ("*/").data

/-- Token-level mirror of one pass of the settings loop: walk the remaining
rows of the table; a row whose token is the last remaining token consumes it
and applies its effect; other rows leave the state alone. -/
def passTok : List Tok → List Tok → (Settings × ShaderCaps) → List Tok × (Settings × ShaderCaps)
  | [], ts, a => (ts, a)
  | r :: rs, ts, a =>
      if ts.getLast? = some r then passTok rs ts.dropLast (applyTok r a)
      else passTok rs ts a

/-- A fully successful collaborator oracle, for concrete instantiations. -/
def wOk : World :=
  { readOk := true, fileText := [], outOpenOk := true, compileOk := true,
    errorText := [], closeOk := true }

/-! ## General lemmas about lists, suffixes and the parser loop -/

theorem suffix_total {l₁ l₂ l₃ : List Char} (h1 : l₁ <:+ l₃) (h2 : l₂ <:+ l₃) :
    l₁ <:+ l₂ ∨ l₂ <:+ l₁ := by
  obtain ⟨u, hu⟩ := h1
  obtain ⟨v, hv⟩ := h2
  rw [← hv] at hu
  rcases List.append_eq_append_iff.mp hu with ⟨a, _, ha2⟩ | ⟨c, _, hc2⟩
  · exact Or.inr ⟨a, ha2.symm⟩
  · exact Or.inl ⟨c, hc2.symm⟩

theorem not_isSuffixOf_of_isSuffixOf (B : List Char) {A p : List Char}
    (hA : A.isSuffixOf p = true)
    (h1 : ¬ A <:+ B) (h2 : ¬ B <:+ A) : B.isSuffixOf p = false := by
  by_contra hcon
  have hB : B.isSuffixOf p = true := by
    cases hb : B.isSuffixOf p
    · exact absurd hb hcon
    · rfl
  rcases suffix_total (List.isSuffixOf_iff_suffix.mp hA) (List.isSuffixOf_iff_suffix.mp hB)
    with h | h
  · exact h1 h
  · exact h2 h

/-! ## Claims C3, C7, C10, C8, C6 -/

/-- C3: pragma token consumption is order-independent for disjoint tokens:
the pragma texts "settings Default Sharpen" and "settings Sharpen Default"
produce identical final settings and capability state (sharpen toggled, the
Default bundle selected), from the default initial state. -/
theorem C3_order_independent :
    detect_shader_settings (("/*#pragma settings Default Sharpen*/").data)
        defaultSettings .standalone
      = detect_shader_settings (("/*#pragma settings Sharpen Default*/").data)
          defaultSettings .standalone
    ∧ detect_shader_settings (("/*#pragma settings Default Sharpen*/").data)
        defaultSettings .standalone
      = .ok ({ defaultSettings with fSharpenTextures := true }, ShaderCaps.default) :=
  ⟨by decide, by decide⟩

/-- C7: a text without the marker "/*#pragma settings " leaves the pragma
parser trivially successful with no mutation: any incoming settings record and
capability reference come back unchanged, and in particular the default
record (all toggles false, default inline threshold) and the standalone
bundle are kept. -/
theorem C7_no_marker_no_mutation (text : List Char)
    (h : strstr kPragmaSettings text = none) :
    (∀ (s : Settings) (c : ShaderCaps), detect_shader_settings text s c = .ok (s, c))
    ∧ detect_shader_settings text defaultSettings .standalone
        = .ok (defaultSettings, .standalone)
    ∧ defaultSettings.fFlipY = false
    ∧ defaultSettings.fForceHighPrecision = false
    ∧ defaultSettings.fSharpenTextures = false
    ∧ defaultSettings.fInlineThreshold = defaultInlineThreshold := by
  refine ⟨fun s c => ?_, ?_, rfl, rfl, rfl, rfl⟩ <;> simp [detect_shader_settings, h]

/-- Witness for C7 at a concrete marker-free shader text. -/
theorem C7_witness :
    detect_shader_settings (("float x = 1;").data) defaultSettings .standalone
      = .ok (defaultSettings, .standalone) :=
  (C7_no_marker_no_mutation (("float x = 1;").data) (by decide)).2.1

/-- C10: a text that contains the marker but no "*/" terminator after it
makes the pragma parser succeed with no mutation (rather than report an
error). -/
theorem C10_unterminated_pragma (text fromMarker : List Char)
    (h1 : strstr kPragmaSettings text = some fromMarker)
    (h2 : strstr (("*/").data) (fromMarker.drop (kPragmaSettings.length - 1)) = none) :
    ∀ (s : Settings) (c : ShaderCaps), detect_shader_settings text s c = .ok (s, c) := by
  intro s c
  simp [detect_shader_settings, h1, h2]

/-- Witness for C10 at a concrete unterminated pragma. -/
theorem C10_witness :
    detect_shader_settings (("/*#pragma settings Sharpen").data) defaultSettings .standalone
      = .ok (defaultSettings, .standalone) :=
  C10_unterminated_pragma (("/*#pragma settings Sharpen").data)
    (("/*#pragma settings Sharpen").data) (by decide) (by decide) defaultSettings .standalone

/-- C8: base-name derivation: "a/b/GrFoo.fp" with prefix "Gr" and suffix
".fp" yields "Foo"; any path whose filename part does not start with the
prefix, or whose end does not match the suffix, yields the empty string. -/
theorem C8_base_name :
    base_name (("a/b/GrFoo.fp").data) (("Gr").data) ((".fp").data) = ("Foo").data
    ∧ ∀ (p pre suf : List Char),
        (pre.isPrefixOf (fileNameOf p) = false ∨ suf.isSuffixOf p = false) →
        base_name p pre suf = [] := by
  constructor
  · decide
  · intro p pre suf h
    unfold base_name
    rcases h with h | h <;> simp [h]

/-- Witness for C8's second part at a concrete non-matching path. -/
theorem C8_witness :
    base_name (("x.cpp").data) (("Gr").data) ((".fp").data) = [] :=
  C8_base_name.2 (("x.cpp").data) (("Gr").data) ((".fp").data) (Or.inl (by decide))

/-- C6: a job argument list whose length is neither 3 nor 4, or a 4-element
list whose fourth element is neither "--settings" nor "--nosettings", makes
the job print the usage banner and return kInputError, with no file
I/O whatsoever (no input read, no output open/write/close). -/
theorem C6_arg_validation (args : List (List Char)) (w : World)
    (h : (args.length ≠ 3 ∧ args.length ≠ 4)
       ∨ (args.length = 4 ∧ args.getD 3 [] ≠ ("--settings").data
            ∧ args.getD 3 [] ≠ ("--nosettings").data)) :
    (processCommand args w).1 = .kInputError
    ∧ Event.print usageText ∈ (processCommand args w).2
    ∧ ∀ e ∈ (processCommand args w).2, isFileEvent e = false := by
  rcases h with ⟨h3, h4⟩ | ⟨h4, hs, hns⟩
  · have : processCommand args w = (.kInputError, [Event.print usageText]) := by
      simp [processCommand, h3, h4]
    rw [this]
    refine ⟨rfl, by simp, ?_⟩
    intro e he
    simp at he
    simp [he, isFileEvent]
  · obtain ⟨a0, a1, a2, a3, rfl⟩ : ∃ a0 a1 a2 a3, args = [a0, a1, a2, a3] := by
      rcases args with _ | ⟨a0, _ | ⟨a1, _ | ⟨a2, _ | ⟨a3, _ | ⟨a4, rest⟩⟩⟩⟩⟩ <;>
        simp_all
    have hs' : a3 ≠ ("--settings").data := by simpa using hs
    have hns' : a3 ≠ ("--nosettings").data := by simpa using hns
    have : processCommand [a0, a1, a2, a3] w
        = (.kInputError,
           [Event.print (unrecognizedFlagMsg a3), Event.print usageText]) := by
      simp [processCommand, hs', hns']
    rw [this]
    refine ⟨rfl, by simp, ?_⟩
    intro e he
    simp at he
    rcases he with he | he <;> simp [he, isFileEvent]

/-- Witness for C6 at a concrete 2-argument job. -/
theorem C6_witness :
    (processCommand [("skslc").data, ("in.vert").data] wOk).1 = .kInputError :=
  (C6_arg_validation [("skslc").data, ("in.vert").data] wOk
    (Or.inl ⟨by decide, by decide⟩)).1

/-! ## Claim C5: stage resolution -/

/-- C5: stage resolution maps ".vert" to Vertex, ".frag"/".sksl" to Fragment,
".geom" to Geometry, ".fp" to FragmentProcessor and ".stage" to PipelineStage;
a path with none of these suffixes resolves to no stage at all (no default),
and the job returns kInputError printing a diagnostic that names every
allowed suffix. -/
theorem C5_stage_resolution (p : List Char) :
    (((".vert").data).isSuffixOf p = true → stageOfPath p = some .kVertex)
    ∧ (((".frag").data).isSuffixOf p = true → stageOfPath p = some .kFragment)
    ∧ (((".sksl").data).isSuffixOf p = true → stageOfPath p = some .kFragment)
    ∧ (((".geom").data).isSuffixOf p = true → stageOfPath p = some .kGeometry)
    ∧ (((".fp").data).isSuffixOf p = true → stageOfPath p = some .kFragmentProcessor)
    ∧ (((".stage").data).isSuffixOf p = true → stageOfPath p = some .kPipelineStage)
    ∧ ((((".vert").data).isSuffixOf p = false ∧ ((".frag").data).isSuffixOf p = false
          ∧ ((".sksl").data).isSuffixOf p = false ∧ ((".geom").data).isSuffixOf p = false
          ∧ ((".fp").data).isSuffixOf p = false ∧ ((".stage").data).isSuffixOf p = false) →
        stageOfPath p = none
        ∧ ∀ (a0 outp : List Char) (w : World),
            processCommand [a0, p, outp] w = (.kInputError, [Event.print stageErrMsg]))
    ∧ ((".vert").data <:+: stageErrMsg) ∧ ((".frag").data <:+: stageErrMsg)
    ∧ ((".geom").data <:+: stageErrMsg) ∧ ((".fp").data <:+: stageErrMsg)
    ∧ ((".stage").data <:+: stageErrMsg) ∧ ((".sksl").data <:+: stageErrMsg) := by
  refine ⟨?_, ?_, ?_, ?_, ?_, ?_, ?_, by decide, by decide, by decide, by decide,
    by decide, by decide⟩
  · intro h
    simp [stageOfPath, h]
  · intro h
    have v := not_isSuffixOf_of_isSuffixOf (".vert").data h (by decide) (by decide)
    simp [stageOfPath, h, v]
  · intro h
    have v := not_isSuffixOf_of_isSuffixOf (".vert").data h (by decide) (by decide)
    simp [stageOfPath, h, v]
  · intro h
    have v := not_isSuffixOf_of_isSuffixOf (".vert").data h (by decide) (by decide)
    have f := not_isSuffixOf_of_isSuffixOf (".frag").data h (by decide) (by decide)
    have s := not_isSuffixOf_of_isSuffixOf (".sksl").data h (by decide) (by decide)
    simp [stageOfPath, h, v, f, s]
  · intro h
    have v := not_isSuffixOf_of_isSuffixOf (".vert").data h (by decide) (by decide)
    have f := not_isSuffixOf_of_isSuffixOf (".frag").data h (by decide) (by decide)
    have s := not_isSuffixOf_of_isSuffixOf (".sksl").data h (by decide) (by decide)
    have g := not_isSuffixOf_of_isSuffixOf (".geom").data h (by decide) (by decide)
    simp [stageOfPath, h, v, f, s, g]
  · intro h
    have v := not_isSuffixOf_of_isSuffixOf (".vert").data h (by decide) (by decide)
    have f := not_isSuffixOf_of_isSuffixOf (".frag").data h (by decide) (by decide)
    have s := not_isSuffixOf_of_isSuffixOf (".sksl").data h (by decide) (by decide)
    have g := not_isSuffixOf_of_isSuffixOf (".geom").data h (by decide) (by decide)
    have fp := not_isSuffixOf_of_isSuffixOf (".fp").data h (by decide) (by decide)
    simp [stageOfPath, h, v, f, s, g, fp]
  · rintro ⟨hv, hf, hs, hg, hfp, hst⟩
    have hnone : stageOfPath p = none := by
      simp [stageOfPath, hv, hf, hs, hg, hfp, hst]
    refine ⟨hnone, fun a0 outp w => ?_⟩
    simp [processCommand, hnone]

/-- Witness for C5 at concrete recognized and unrecognized paths. -/
theorem C5_witness :
    stageOfPath (("a.vert").data) = some .kVertex
    ∧ stageOfPath (("a.txt").data) = none :=
  ⟨(C5_stage_resolution (("a.vert").data)).1 (by decide),
   ((C5_stage_resolution (("a.txt").data)).2.2.2.2.2.2.1
      ⟨by decide, by decide, by decide, by decide, by decide, by decide⟩).1⟩

/-! ## Claim C9: close failure supersedes success -/

/-- C9: in every backend pipeline, when the output opens, the compile and
emit steps succeed, but the final close of the output fails, the job's result
is kOutputError, superseding the otherwise successful outcome. -/
theorem C9_close_failure (a0 inp outp : List Char) (w : World) (k : ProgramKind)
    (sc : Settings × ShaderCaps)
    (hstage : stageOfPath inp = some k)
    (hread : w.readOk = true)
    (hdet : detect_shader_settings w.fileText defaultSettings .standalone = .ok sc)
    (hsuf : ((".spirv").data).isSuffixOf outp = true ∨ ((".glsl").data).isSuffixOf outp = true
          ∨ ((".metal").data).isSuffixOf outp = true ∨ ((".h").data).isSuffixOf outp = true
          ∨ ((".cpp").data).isSuffixOf outp = true
          ∨ ((".dehydrated.sksl").data).isSuffixOf outp = true)
    (hopen : w.outOpenOk = true) (hcomp : w.compileOk = true) (hclose : w.closeOk = false) :
    (processCommand [a0, inp, outp] w).1 = .kOutputError := by
  have hroute : (routeBackend outp w).1 = .kOutputError := by
    rcases hsuf with h | h | h | h | h | h
    · simp [routeBackend, h, standardPipeline, hopen, hcomp, hclose]
    · have s1 := not_isSuffixOf_of_isSuffixOf (".spirv").data h (by decide) (by decide)
      simp [routeBackend, h, s1, standardPipeline, hopen, hcomp, hclose]
    · have s1 := not_isSuffixOf_of_isSuffixOf (".spirv").data h (by decide) (by decide)
      have s2 := not_isSuffixOf_of_isSuffixOf (".glsl").data h (by decide) (by decide)
      simp [routeBackend, h, s1, s2, standardPipeline, hopen, hcomp, hclose]
    · have s1 := not_isSuffixOf_of_isSuffixOf (".spirv").data h (by decide) (by decide)
      have s2 := not_isSuffixOf_of_isSuffixOf (".glsl").data h (by decide) (by decide)
      have s3 := not_isSuffixOf_of_isSuffixOf (".metal").data h (by decide) (by decide)
      simp [routeBackend, h, s1, s2, s3, standardPipeline, hopen, hcomp, hclose]
    · have s1 := not_isSuffixOf_of_isSuffixOf (".spirv").data h (by decide) (by decide)
      have s2 := not_isSuffixOf_of_isSuffixOf (".glsl").data h (by decide) (by decide)
      have s3 := not_isSuffixOf_of_isSuffixOf (".metal").data h (by decide) (by decide)
      have s4 := not_isSuffixOf_of_isSuffixOf (".h").data h (by decide) (by decide)
      simp [routeBackend, h, s1, s2, s3, s4, standardPipeline, hopen, hcomp, hclose]
    · have s1 := not_isSuffixOf_of_isSuffixOf (".spirv").data h (by decide) (by decide)
      have s2 := not_isSuffixOf_of_isSuffixOf (".glsl").data h (by decide) (by decide)
      have s3 := not_isSuffixOf_of_isSuffixOf (".metal").data h (by decide) (by decide)
      have s4 := not_isSuffixOf_of_isSuffixOf (".h").data h (by decide) (by decide)
      have s5 := not_isSuffixOf_of_isSuffixOf (".cpp").data h (by decide) (by decide)
      simp [routeBackend, h, s1, s2, s3, s4, s5, dehydratedPipeline, hopen, hclose]
  simp [processCommand, hstage, hread, hdet, hroute]

/-- Witness for C9 at a concrete job whose close fails. -/
theorem C9_witness :
    (processCommand [("skslc").data, ("a.vert").data, ("out.spirv").data]
      { readOk := true, fileText := [], outOpenOk := true, compileOk := true,
        errorText := [], closeOk := false }).1 = .kOutputError :=
  C9_close_failure (("skslc").data) (("a.vert").data) (("out.spirv").data)
    { readOk := true, fileText := [], outOpenOk := true, compileOk := true,
      errorText := [], closeOk := false }
    .kVertex (defaultSettings, .standalone) (by decide) rfl (by decide)
    (Or.inl (by decide)) rfl rfl rfl

/-! ## Claim C2: unrecognized pragma token aborts the job -/

theorem stepTok_text_le (s : LoopState) (t : Tok) :
    (stepTok s t).text.length ≤ s.text.length := by
  by_cases hs : (tokSuffix t).isSuffixOf s.text
  · simp [stepTok, consumeSuffix, hs, List.length_take]
  · simp [stepTok, consumeSuffix, hs]

theorem foldl_stepTok_text_le (l : List Tok) (s : LoopState) :
    (List.foldl stepTok s l).text.length ≤ s.text.length := by
  induction l generalizing s with
  | nil => exact Nat.le_refl _
  | cons t l ih => exact Nat.le_trans (ih (stepTok s t)) (stepTok_text_le s t)

theorem onePass_text_le (s : LoopState) : (onePass s).text.length ≤ s.text.length :=
  foldl_stepTok_text_le settingsTable s

theorem settingsLoop_error_ne (fuel : Nat) (s : LoopState) (r : List Char)
    (hf : s.text.length < fuel) (h : settingsLoop fuel s = .error r) : r ≠ [] := by
  induction fuel generalizing s with
  | zero => omega
  | succ n ih =>
      by_cases h1 : (onePass s).text = []
      · simp [settingsLoop, h1] at h
      · by_cases h2 : (onePass s).text.length = s.text.length
        · simp [settingsLoop, h1, h2] at h
          exact h ▸ h1
        · simp [settingsLoop, h1, h2] at h
          exact ih (onePass s) (by have := onePass_text_le s; omega) h

theorem detect_error_ne (text : List Char) (s : Settings) (c : ShaderCaps) (r : List Char)
    (h : detect_shader_settings text s c = .error r) : r ≠ [] := by
  unfold detect_shader_settings at h
  cases h1 : strstr kPragmaSettings text with
  | none => simp [h1] at h
  | some fromMarker =>
      rw [h1] at h
      cases h2 : strstr (("*/").data) (fromMarker.drop (kPragmaSettings.length - 1)) with
      | none => simp [h2] at h
      | some fromEnd =>
          simp only [h2] at h
          exact settingsLoop_error_ne _ _ r (Nat.lt_succ_self _) h

/-- C2: when the pragma parser fails on the shader text (a stripping pass
made no progress on a non-empty remainder), the job returns kInputError,
the only observable actions are the input read and a diagnostic that names
the non-empty unrecognized remainder, and in particular the compiler is never
invoked and the output file is never opened or written. -/
theorem C2_pragma_error (a0 inp outp rem : List Char) (w : World) (k : ProgramKind)
    (hstage : stageOfPath inp = some k)
    (hread : w.readOk = true)
    (hdet : detect_shader_settings w.fileText defaultSettings .standalone = .error rem) :
    processCommand [a0, inp, outp] w
      = (.kInputError, [Event.readInput inp, Event.print (unrecognizedPragmaMsg rem)])
    ∧ rem ≠ []
    ∧ rem <:+: unrecognizedPragmaMsg rem
    ∧ ∀ e ∈ (processCommand [a0, inp, outp] w).2,
        e ≠ Event.invokeCompiler ∧ isOutputEvent e = false := by
  have hcmd : processCommand [a0, inp, outp] w
      = (.kInputError, [Event.readInput inp, Event.print (unrecognizedPragmaMsg rem)]) := by
    simp [processCommand, hstage, hread, hdet]
  refine ⟨hcmd, detect_error_ne _ _ _ _ hdet, ?_, ?_⟩
  · exact ⟨("Unrecognized #pragma settings: ").data, ("\n").data, by
      simp [unrecognizedPragmaMsg]⟩
  · rw [hcmd]
    intro e he
    simp at he
    rcases he with he | he <;> simp [he, isOutputEvent]

/-- Witness for C2 at a concrete bogus pragma. -/
theorem C2_witness :
    processCommand [("skslc").data, ("a.vert").data, ("out.spirv").data]
        { readOk := true, fileText := ("/*#pragma settings Bogus*/").data,
          outOpenOk := true, compileOk := true, errorText := [], closeOk := true }
      = (.kInputError,
         [Event.readInput (("a.vert").data),
          Event.print (unrecognizedPragmaMsg ((" Bogus").data))]) :=
  (C2_pragma_error (("skslc").data) (("a.vert").data) (("out.spirv").data) ((" Bogus").data)
    { readOk := true, fileText := ("/*#pragma settings Bogus*/").data,
      outOpenOk := true, compileOk := true, errorText := [], closeOk := true }
    .kVertex (by decide) rfl (by decide)).1

/-! ## Claim C1: batch reduction -/

theorem segments_ne_nil (dl : List Char) (l : List (List Char)) : segments dl l ≠ [] := by
  cases l with
  | nil => simp [segments]
  | cons a rest =>
      unfold segments
      by_cases h : a = dl
      · simp [h]
      · simp only [if_neg h]
        cases segments dl rest <;> simp

theorem mainLoop_eq (exec : List (List Char) → ResultCode) (argv0 : List Char)
    (rest : List (List Char)) :
    ∀ (pending : List (List Char)) (rc : ResultCode) (s : List (List Char))
      (ss : List (List (List Char))), segments delimiter rest = s :: ss →
      mainLoop exec argv0 rest (argv0 :: pending) rc
        = (((pending ++ s) :: ss).filter (fun seg => seg ≠ [])).foldl
            (fun r seg => rcMax r (exec (argv0 :: seg))) rc := by
  induction rest with
  | nil =>
      intro pending rc s ss hseg
      simp only [segments] at hseg
      injection hseg with h1 h2
      subst h1
      subst h2
      by_cases hp : pending = []
      · subst hp
        simp [mainLoop]
      · have hlen : (argv0 :: pending).length > 1 := by
          cases pending
          · exact absurd rfl hp
          · simp
        simp [mainLoop, hlen, hp]
  | cons a rest ih =>
      intro pending rc s ss hseg
      obtain ⟨s', ss', hseg'⟩ := List.exists_cons_of_ne_nil (segments_ne_nil delimiter rest)
      by_cases ha : a = delimiter
      · have hsplit : segments delimiter (a :: rest) = [] :: segments delimiter rest := by
          simp [segments, ha]
        rw [hsplit, hseg'] at hseg
        injection hseg with h1 h2
        subst h1
        subst h2
        by_cases hp : pending = []
        · subst hp
          have hstep : mainLoop exec argv0 (a :: rest) (argv0 :: ([] : List (List Char))) rc
              = mainLoop exec argv0 rest (argv0 :: ([] : List (List Char))) rc := by
            simp [mainLoop, ha]
          rw [hstep, ih [] rc s' ss' hseg']
          simp
        · have hlen : (argv0 :: pending).length > 1 := by
            cases pending
            · exact absurd rfl hp
            · simp
          have hstep : mainLoop exec argv0 (a :: rest) (argv0 :: pending) rc
              = mainLoop exec argv0 rest (argv0 :: ([] : List (List Char)))
                  (rcMax rc (exec (argv0 :: pending))) := by
            simp [mainLoop, ha, hlen, hp]
          rw [hstep, ih [] _ s' ss' hseg']
          simp [hp]
      · have hsplit : segments delimiter (a :: rest) = (a :: s') :: ss' := by
          unfold segments
          simp only [if_neg ha, hseg']
        rw [hsplit] at hseg
        injection hseg with h1 h2
        subst h1
        subst h2
        have hstep : mainLoop exec argv0 (a :: rest) (argv0 :: pending) rc
            = mainLoop exec argv0 rest (argv0 :: (pending ++ [a])) rc := by
          simp [mainLoop, ha]
        rw [hstep, ih (pending ++ [a]) rc s' ss' hseg']
        have happ : pending ++ [a] ++ s' = pending ++ a :: s' := by
          simp
        rw [happ]

theorem skslcMain_eq (exec : List (List Char) → ResultCode) (argv0 : List Char)
    (argv : List (List Char)) :
    skslcMain exec argv0 argv
      = (jobsOf argv).foldl (fun r seg => rcMax r (exec (argv0 :: seg))) .kSuccess := by
  obtain ⟨s, ss, hseg⟩ := List.exists_cons_of_ne_nil (segments_ne_nil delimiter argv)
  have h := mainLoop_eq exec argv0 argv [] .kSuccess s ss hseg
  simpa [skslcMain, jobsOf, hseg] using h

theorem rcMax_toNat (a b : ResultCode) : (rcMax a b).toNat = Nat.max a.toNat b.toNat := by
  cases a <;> cases b <;> rfl

theorem foldl_rcMax_toNat (exec : List (List Char) → ResultCode) (argv0 : List Char)
    (L : List (List (List Char))) (rc : ResultCode) :
    (L.foldl (fun r seg => rcMax r (exec (argv0 :: seg))) rc).toNat
      = (L.map (fun seg => (exec (argv0 :: seg)).toNat)).foldl Nat.max rc.toNat := by
  induction L generalizing rc with
  | nil => rfl
  | cons s L ih => simp [List.foldl_cons, ih, rcMax_toNat]

/-- C1: the process exit status of a batch is the maximum (most severe)
ResultCode over the executed jobs, under the severity order
Success=0 < CompileError=1 < InputError=2 < OutputError=3; the jobs are the
non-empty delimiter-separated argument groups, including a trailing group
with no trailing "--"; a batch with zero jobs exits with kSuccess. -/
theorem C1_batch_reduction (exec : List (List Char) → ResultCode) (argv0 : List Char)
    (argv : List (List Char)) :
    (skslcMain exec argv0 argv).toNat
      = ((jobsOf argv).map (fun seg => (exec (argv0 :: seg)).toNat)).foldl Nat.max 0
    ∧ (jobsOf argv = [] → skslcMain exec argv0 argv = .kSuccess)
    ∧ ResultCode.kSuccess.toNat = 0 ∧ ResultCode.kCompileError.toNat = 1
    ∧ ResultCode.kInputError.toNat = 2 ∧ ResultCode.kOutputError.toNat = 3 := by
  have he := skslcMain_eq exec argv0 argv
  refine ⟨?_, ?_, rfl, rfl, rfl, rfl⟩
  · rw [he, foldl_rcMax_toNat]
    rfl
  · intro hj
    rw [he, hj]
    rfl

/-- Witness for C1: a two-job batch with a trailing segment reduces to the
more severe outcome, and a batch with zero jobs yields kSuccess. -/
theorem C1_witness :
    (skslcMain
        (fun a => if a.getD 1 [] = ("b.vert").data then .kOutputError else .kInputError)
        (("skslc").data)
        [("a.vert").data, ("o1.glsl").data, ("--").data,
         ("b.vert").data, ("o2.glsl").data]).toNat = 3
    ∧ skslcMain (fun _ => .kCompileError) (("skslc").data) [("--").data] = .kSuccess := by
  constructor
  · rw [(C1_batch_reduction _ _ _).1]
    decide
  · exact (C1_batch_reduction _ _ _).2.1 (by decide)

/-! ## Claim C4: the leftmost capability selector wins -/

theorem tokName_no_space : ∀ t : Tok, ' ' ∉ tokName t := by
  intro t
  cases t <;> decide

theorem tokSuffix_no_star : ∀ t : Tok, '*' ∉ tokSuffix t := by
  intro t
  cases t <;> decide

theorem tokName_inj : ∀ a b : Tok, tokName a = tokName b → a = b := by
  intro a b
  cases a <;> cases b <;> decide

theorem tok_mem_table : ∀ t : Tok, t ∈ settingsTable := by
  intro t
  cases t <;> decide

theorem space_mem {N M : List Char} (h : (' ' :: N) <:+ (' ' :: M))
    (hlt : N.length < M.length) : ' ' ∈ M := by
  obtain ⟨u, hu⟩ := h
  cases u with
  | nil =>
      simp only [List.nil_append, List.cons.injEq] at hu
      rw [hu.2] at hlt
      omega
  | cons ch u' =>
      simp only [List.cons_append, List.cons.injEq] at hu
      rw [← hu.2]
      exact List.mem_append_right _ (List.mem_cons_self _ _)

theorem joinToks_append (a b : List Tok) : joinToks (a ++ b) = joinToks a ++ joinToks b := by
  simp [joinToks]

theorem joinToks_eq_nil_iff (ts : List Tok) : joinToks ts = [] ↔ ts = [] := by
  cases ts with
  | nil => simp [joinToks]
  | cons t ts => simp [joinToks, tokSuffix]

theorem consumeSuffix_join_concat (r t : Tok) (ts₀ : List Tok) :
    consumeSuffix (tokSuffix r) (joinToks (ts₀ ++ [t]))
      = if r = t then some (joinToks ts₀) else none := by
  have hj : joinToks (ts₀ ++ [t]) = joinToks ts₀ ++ tokSuffix t := by
    rw [joinToks_append]
    simp [joinToks]
  by_cases hrt : r = t
  · subst hrt
    have hsuf : (tokSuffix r).isSuffixOf (joinToks (ts₀ ++ [r])) = true := by
      rw [List.isSuffixOf_iff_suffix, hj]
      exact List.suffix_append _ _
    simp only [consumeSuffix, hsuf, if_pos rfl, if_true]
    rw [hj]
    simp [List.take_left]
  · rw [if_neg hrt]
    have hsuf : (tokSuffix r).isSuffixOf (joinToks (ts₀ ++ [t])) = false := by
      by_contra hcon
      have hB : (tokSuffix r).isSuffixOf (joinToks (ts₀ ++ [t])) = true := by
        cases hb : (tokSuffix r).isSuffixOf (joinToks (ts₀ ++ [t]))
        · exact absurd hb hcon
        · rfl
      have hr : tokSuffix r <:+ joinToks (ts₀ ++ [t]) := List.isSuffixOf_iff_suffix.mp hB
      have ht : tokSuffix t <:+ joinToks (ts₀ ++ [t]) := by
        rw [hj]
        exact List.suffix_append _ _
      rcases suffix_total hr ht with hsub | hsub
      · have hle := List.IsSuffix.length_le hsub
        rcases Nat.lt_or_ge (tokSuffix r).length (tokSuffix t).length with hlt | hge
        · have : ' ' ∈ tokName t := by
            have := space_mem (N := tokName r) (M := tokName t) hsub (by
              simpa [tokSuffix] using hlt)
            exact this
          exact tokName_no_space t this
        · have heq := List.IsSuffix.eq_of_length hsub (Nat.le_antisymm hle hge)
          have : tokName r = tokName t := by
            simpa [tokSuffix] using heq
          exact hrt (tokName_inj r t this)
      · have hle := List.IsSuffix.length_le hsub
        rcases Nat.lt_or_ge (tokSuffix t).length (tokSuffix r).length with hlt | hge
        · have : ' ' ∈ tokName r := by
            have := space_mem (N := tokName t) (M := tokName r) hsub (by
              simpa [tokSuffix] using hlt)
            exact this
          exact tokName_no_space r this
        · have heq := List.IsSuffix.eq_of_length hsub (Nat.le_antisymm hle hge)
          have : tokName t = tokName r := by
            simpa [tokSuffix] using heq
          exact hrt (tokName_inj r t this.symm)
    simp [consumeSuffix, hsuf]

theorem consumeSuffix_join (r : Tok) (ts : List Tok) :
    consumeSuffix (tokSuffix r) (joinToks ts)
      = if ts.getLast? = some r then some (joinToks ts.dropLast) else none := by
  rcases eq_or_ne ts [] with rfl | hne
  · simp [joinToks, consumeSuffix, tokSuffix, List.isSuffixOf]
  · have hd := List.dropLast_append_getLast hne
    have hlast := List.getLast?_eq_getLast ts hne
    conv_lhs => rw [← hd]
    rw [consumeSuffix_join_concat]
    rw [hlast]
    by_cases hrt : r = ts.getLast hne
    · rw [if_pos hrt, if_pos (by rw [hrt])]
    · rw [if_neg hrt, if_neg (by
        intro hcon
        injection hcon with hcon
        exact hrt hcon.symm)]

theorem foldl_stepTok_join (rs : List Tok) :
    ∀ (ts : List Tok) (s : Settings) (c : ShaderCaps),
      List.foldl stepTok ⟨joinToks ts, s, c⟩ rs
        = ⟨joinToks (passTok rs ts (s, c)).1, (passTok rs ts (s, c)).2.1,
           (passTok rs ts (s, c)).2.2⟩ := by
  induction rs with
  | nil => intro ts s c; rfl
  | cons r rs ih =>
      intro ts s c
      by_cases h : ts.getLast? = some r
      · have hstep : stepTok ⟨joinToks ts, s, c⟩ r
            = ⟨joinToks ts.dropLast, (applyTok r (s, c)).1, (applyTok r (s, c)).2⟩ := by
          simp [stepTok, consumeSuffix_join, h]
        rw [List.foldl_cons, hstep, ih ts.dropLast (applyTok r (s, c)).1 (applyTok r (s, c)).2]
        simp [passTok, h]
      · have hstep : stepTok ⟨joinToks ts, s, c⟩ r = ⟨joinToks ts, s, c⟩ := by
          simp [stepTok, consumeSuffix_join, h]
        rw [List.foldl_cons, hstep, ih ts s c]
        simp [passTok, h]

theorem passTok_nil (rs : List Tok) (a : Settings × ShaderCaps) : passTok rs [] a = ([], a) := by
  induction rs with
  | nil => rfl
  | cons r rs ih => simp [passTok, ih]

theorem passTok_fst_le (rs : List Tok) :
    ∀ (ts : List Tok) (a : Settings × ShaderCaps), (passTok rs ts a).1.length ≤ ts.length := by
  induction rs with
  | nil => intro ts a; exact Nat.le_refl _
  | cons r rs ih =>
      intro ts a
      by_cases h : ts.getLast? = some r
      · have h1 := ih ts.dropLast (applyTok r a)
        have h2 : ts.dropLast.length ≤ ts.length := by
          rw [List.length_dropLast]
          omega
        simp only [passTok, if_pos h]
        exact Nat.le_trans h1 h2
      · simp only [passTok, if_neg h]
        exact ih ts a

theorem passTok_decomp (rs : List Tok) :
    ∀ (ts : List Tok) (a : Settings × ShaderCaps),
      ∃ cs, ts = (passTok rs ts a).1 ++ cs
        ∧ (passTok rs ts a).2 = cs.foldr applyTok a := by
  induction rs with
  | nil => intro ts a; exact ⟨[], by simp [passTok], rfl⟩
  | cons r rs ih =>
      intro ts a
      by_cases h : ts.getLast? = some r
      · have hne : ts ≠ [] := by
          intro hnil
          rw [hnil] at h
          simp at h
        have hlast : ts.getLast hne = r := by
          have hl := List.getLast?_eq_getLast ts hne
          rw [hl] at h
          injection h
        obtain ⟨cs', h1, h2⟩ := ih ts.dropLast (applyTok r a)
        refine ⟨cs' ++ [r], ?_, ?_⟩
        · have hd : ts.dropLast ++ [r] = ts := by
            rw [← hlast]
            exact List.dropLast_append_getLast hne
          calc ts = ts.dropLast ++ [r] := hd.symm
            _ = ((passTok rs ts.dropLast (applyTok r a)).1 ++ cs') ++ [r] := by rw [← h1]
            _ = (passTok (r :: rs) ts a).1 ++ (cs' ++ [r]) := by
                simp [passTok, h, List.append_assoc]
        · simp only [passTok, if_pos h]
          rw [h2, List.foldr_append]
          rfl
      · obtain ⟨cs, h1, h2⟩ := ih ts a
        exact ⟨cs, by simpa [passTok, h] using h1, by simpa [passTok, h] using h2⟩

theorem passTok_progress (rs : List Tok) :
    ∀ (ts : List Tok) (a : Settings × ShaderCaps) (t : Tok),
      ts.getLast? = some t → t ∈ rs → (passTok rs ts a).1.length < ts.length := by
  induction rs with
  | nil =>
      intro ts a t _ hmem
      simp at hmem
  | cons r rs ih =>
      intro ts a t hlast hmem
      have hne : ts ≠ [] := by
        intro hnil
        rw [hnil] at hlast
        simp at hlast
      have hpos : 0 < ts.length := List.length_pos.mpr hne
      by_cases h : ts.getLast? = some r
      · have hle := passTok_fst_le rs ts.dropLast (applyTok r a)
        have hd : ts.dropLast.length = ts.length - 1 := List.length_dropLast ts
        simp only [passTok, if_pos h]
        omega
      · have hrt : t ≠ r := by
          intro he
          rw [he] at hlast
          exact h hlast
        have hmem' : t ∈ rs := by
          rcases List.mem_cons.mp hmem with he | hm
          · exact absurd he hrt
          · exact hm
        simp only [passTok, if_neg h]
        exact ih ts a t hlast hmem'

theorem settingsLoop_join (n : Nat) :
    ∀ (ts : List Tok) (s : Settings) (c : ShaderCaps), (joinToks ts).length < n →
      settingsLoop n ⟨joinToks ts, s, c⟩ = .ok (ts.foldr applyTok (s, c)) := by
  induction n with
  | zero =>
      intro ts s c h
      omega
  | succ n ih =>
      intro ts s c hlen
      have hpass := foldl_stepTok_join settingsTable ts s c
      rcases eq_or_ne ts [] with rfl | hne
      · have hpass' : List.foldl stepTok { text := [], settings := s, caps := c } settingsTable
            = { text := [], settings := s, caps := c } := by
          simpa [joinToks, passTok_nil] using hpass
        simp [settingsLoop, onePass, joinToks, hpass']
      · obtain ⟨t, hlast⟩ : ∃ t, ts.getLast? = some t := by
          cases hts : ts.getLast? with
          | none => exact absurd (List.getLast?_eq_none_iff.mp hts) hne
          | some t => exact ⟨t, rfl⟩
        have hprog := passTok_progress settingsTable ts (s, c) t hlast (tok_mem_table t)
        obtain ⟨cs, hdec, happ⟩ := passTok_decomp settingsTable ts (s, c)
        have hcs : cs ≠ [] := by
          intro hnil
          rw [hnil, List.append_nil] at hdec
          rw [← hdec] at hprog
          omega
        rcases eq_or_ne (passTok settingsTable ts (s, c)).1 [] with hnil | hne'
        · have hop : List.foldl stepTok { text := joinToks ts, settings := s, caps := c }
              settingsTable
              = { text := [], settings := (passTok settingsTable ts (s, c)).2.1,
                  caps := (passTok settingsTable ts (s, c)).2.2 } := by
            rw [hpass, hnil]
            simp [joinToks]
          have hts : ts = cs := by
            rw [hdec, hnil, List.nil_append]
          have hfold : List.foldr applyTok (s, c) ts = List.foldr applyTok (s, c) cs := by
            rw [hts]
          rw [hfold, ← happ]
          simp [settingsLoop, onePass, hop]
        · have hjlen : (joinToks (passTok settingsTable ts (s, c)).1).length
              < (joinToks ts).length := by
            conv_rhs => rw [hdec]
            rw [joinToks_append, List.length_append]
            have hjcs : joinToks cs ≠ [] := by
              intro hx
              exact hcs ((joinToks_eq_nil_iff cs).mp hx)
            have hpos : 0 < (joinToks cs).length := List.length_pos.mpr hjcs
            omega
          have hjne : joinToks (passTok settingsTable ts (s, c)).1 ≠ [] := by
            intro hx
            exact hne' ((joinToks_eq_nil_iff _).mp hx)
          have hrec := ih (passTok settingsTable ts (s, c)).1
            (passTok settingsTable ts (s, c)).2.1 (passTok settingsTable ts (s, c)).2.2
            (by omega)
          have hfold : List.foldr applyTok (s, c) ts
              = List.foldr applyTok
                  ((passTok settingsTable ts (s, c)).2.1,
                   (passTok settingsTable ts (s, c)).2.2)
                  (passTok settingsTable ts (s, c)).1 := by
            conv_lhs => rw [hdec]
            rw [List.foldr_append, ← happ]
          rw [hfold, ← hrec]
          simp only [settingsLoop, onePass]
          rw [hpass]
          dsimp only
          rw [if_neg hjne, if_neg (Nat.ne_of_lt hjlen)]

theorem strstr_of_prefix {pat text : List Char} (h : pat.isPrefixOf text = true) :
    strstr pat text = some text := by
  cases text with
  | nil =>
      show (if pat.isPrefixOf ([] : List Char) then some ([] : List Char) else none)
        = some ([] : List Char)
      rw [h]
      rfl
  | cons ch rest =>
      show (if pat.isPrefixOf (ch :: rest) then some (ch :: rest) else strstr pat rest)
        = some (ch :: rest)
      rw [h]
      rfl

theorem strstr_append {ch : Char} {p xs ys : List Char} (h : ch ∉ xs) :
    strstr (ch :: p) (xs ++ ys) = strstr (ch :: p) ys := by
  induction xs with
  | nil => rfl
  | cons x xs ih =>
      have hx : ch ≠ x := List.ne_of_not_mem_cons h
      have h' : ch ∉ xs := fun hm => h (List.mem_cons_of_mem x hm)
      have hpre : (ch :: p).isPrefixOf (x :: (xs ++ ys)) = false := by
        simp [List.isPrefixOf, hx]
      rw [List.cons_append]
      show (if (ch :: p).isPrefixOf (x :: (xs ++ ys)) then some (x :: (xs ++ ys))
          else strstr (ch :: p) (xs ++ ys)) = strstr (ch :: p) ys
      rw [hpre]
      simpa using ih h'

theorem star_not_mem_join (ts : List Tok) : '*' ∉ joinToks ts := by
  induction ts with
  | nil => simp [joinToks]
  | cons t ts ih =>
      have hj : joinToks (t :: ts) = tokSuffix t ++ joinToks ts := by
        simp [joinToks]
      rw [hj]
      intro hm
      rcases List.mem_append.mp hm with hm | hm
      · exact tokSuffix_no_star t hm
      · exact ih hm

theorem detect_pragma (ts : List Tok) (s : Settings) (c : ShaderCaps) (hne : ts ≠ []) :
    detect_shader_settings (pragmaOf ts) s c = .ok (ts.foldr applyTok (s, c)) := by
  obtain ⟨t, ts', rfl⟩ := List.exists_cons_of_ne_nil hne
  have hjoin : joinToks (t :: ts') = ' ' :: (tokName t ++ joinToks ts') := by
    simp [joinToks, tokSuffix]
  have hsplit : pragmaOf (t :: ts')
      = ("/*#pragma settings").data ++ (joinToks (t :: ts') ++ ("*/").data) := by
    simp [pragmaOf, List.append_assoc]
  have hpre : kPragmaSettings.isPrefixOf (pragmaOf (t :: ts')) = true := by
    rw [List.isPrefixOf_iff_prefix, hsplit, hjoin]
    have hk : kPragmaSettings = ("/*#pragma settings").data ++ [' '] := by decide
    rw [hk, List.prefix_append_right_inj]
    exact ⟨tokName t ++ joinToks ts' ++ ("*/").data, by simp⟩
  have h1 : strstr kPragmaSettings (pragmaOf (t :: ts')) = some (pragmaOf (t :: ts')) :=
    strstr_of_prefix hpre
  have hdrop : (pragmaOf (t :: ts')).drop (kPragmaSettings.length - 1)
      = joinToks (t :: ts') ++ ("*/").data := by
    have hlen : kPragmaSettings.length - 1 = (("/*#pragma settings").data).length := by decide
    rw [hlen, hsplit, List.drop_left]
  have h2 : strstr (("*/").data) (joinToks (t :: ts') ++ ("*/").data)
      = some (("*/").data) := by
    have hs : strstr ('*' :: ('/' : Char) :: []) (joinToks (t :: ts') ++ ("*/").data)
        = strstr ('*' :: ('/' : Char) :: []) (("*/").data) :=
      strstr_append (star_not_mem_join _)
    exact hs.trans (by decide)
  have htake : (joinToks (t :: ts') ++ ("*/").data).take
      ((joinToks (t :: ts') ++ ("*/").data).length - (("*/").data).length)
      = joinToks (t :: ts') := by
    rw [show (joinToks (t :: ts') ++ ("*/").data).length - (("*/").data).length
        = (joinToks (t :: ts')).length by simp]
    exact List.take_left _ _
  unfold detect_shader_settings
  rw [h1]
  simp only [hdrop, h2, htake]
  exact settingsLoop_join _ (t :: ts') s c (Nat.lt_succ_self _)

theorem applyTok_caps_sel (t : Tok) (a : Settings × ShaderCaps) (h : isSelector t = true) :
    (applyTok t a).2 = capOf t := by
  cases t <;> simp_all [applyTok, capOf, isSelector]

theorem applyTok_caps_tog (t : Tok) (a : Settings × ShaderCaps) (h : isSelector t = false) :
    (applyTok t a).2 = a.2 := by
  cases t <;> simp_all [applyTok, isSelector]

theorem foldr_caps (ts : List Tok) (a : Settings × ShaderCaps) :
    (ts.foldr applyTok a).2
      = match ts.find? isSelector with
        | some t => capOf t
        | none => a.2 := by
  induction ts with
  | nil => rfl
  | cons t ts ih =>
      cases hsel : isSelector t
      · rw [List.foldr_cons, applyTok_caps_tog t _ hsel, ih,
          List.find?_cons_of_neg _ (by simp [hsel])]
      · rw [List.foldr_cons, applyTok_caps_sel t _ hsel, List.find?_cons_of_pos _ hsel]

/-- C4: for every pragma the parser fully accepts (a space-joined sequence of
recognized tokens) in which more than one capability-bundle selector appears,
the final capability reference is the bundle of the leftmost selector in the
pragma text — the selector processed last under the parser's right-to-left
suffix consumption — and every selector, when processed, unconditionally
overwrites the capability reference with its bundle. -/
theorem C4_last_selector_wins (ts : List Tok) (s : Settings) (c : ShaderCaps)
    (h2 : 2 ≤ (ts.filter isSelector).length) :
    (∃ t, ts.find? isSelector = some t
       ∧ detect_shader_settings (pragmaOf ts) s c = .ok (ts.foldr applyTok (s, c))
       ∧ (ts.foldr applyTok (s, c)).2 = capOf t)
    ∧ ∀ (t : Tok) (a : Settings × ShaderCaps), isSelector t = true →
        (applyTok t a).2 = capOf t := by
  have hne : ts ≠ [] := by
    intro hnil
    rw [hnil] at h2
    simp at h2
  have hex : ∃ x ∈ ts, isSelector x = true := by
    by_contra hc
    push_neg at hc
    have hnil : ts.filter isSelector = [] := List.filter_eq_nil_iff.mpr (by
      intro a ha
      exact (Bool.not_eq_true _).mp (hc a ha) ▸ (by simp [hc a ha]))
    rw [hnil] at h2
    simp at h2
  obtain ⟨t, hfind⟩ := Option.isSome_iff_exists.mp (List.find?_isSome.mpr hex)
  refine ⟨⟨t, hfind, detect_pragma ts s c hne, ?_⟩,
    fun t a h => applyTok_caps_sel t a h⟩
  rw [foldr_caps, hfind]

/-- Witness for C4: a two-selector pragma ends with the leftmost selector's
bundle (Version110) installed. -/
theorem C4_witness :
    detect_shader_settings (pragmaOf [Tok.version110, Tok.default]) defaultSettings
      ShaderCaps.standalone = .ok (defaultSettings, ShaderCaps.version110) := by
  obtain ⟨⟨t, hfind, hdet, hcaps⟩, _⟩ :=
    C4_last_selector_wins [Tok.version110, Tok.default] defaultSettings .standalone (by decide)
  rw [hdet]
  decide

end SkSLMain
